import Mathlib

/-!
Verification of the nimbus notification pipeline against its specification.

The definitions below are a shallow embedding of the Go sources:
  internal/db/models.go, internal/db/repository.go   (store, data model)
  internal/worker  (worker loop, backoff, multi-sender router)
  internal/api/handler.go  (acceptance endpoint, operator PATCH)
  internal/circuitbreaker/circuitbreaker.go
  internal/redis/idempotency.go, rate limiter (AllowN)

Modelling conventions: UUIDs are opaque strings, timestamps are integers
(seconds), JSON payloads are opaque strings, and every fallible database
operation is a pure function on an explicit `Store` value.  Statuses are
the string constants of models.go.  The notifications table is a list of
rows kept in insertion order; since rows are only appended, list order
coincides with created_at ascending order, which is the order used by
the claim_due_pending query.
-/

namespace Nimbus

/-- Status constants from internal/db/models.go. -/
def StatusPending : String := "pending"

def StatusProcessing : String := "processing"

def StatusSent : String := "sent"

def StatusFailed : String := "failed"

def StatusDeadLettered : String := "dead_lettered"

/-- Channel constants from internal/db/models.go. -/
def ChannelEmail : String := "email"

def ChannelSMS : String := "sms"

def ChannelWebhook : String := "webhook"

/-- DLQ status constants from internal/db/models.go. -/
def DLQStatusPending : String := "pending"

def DLQStatusRetried : String := "retried"

def DLQStatusDiscarded : String := "discarded"

/-- Notification row (internal/db/models.go `Notification`). -/
structure Notification where
  id : String
  tenantId : String
  userId : String
  channel : String
  payload : String
  status : String
  attempt : Int
  errorMessage : Option String
  nextRetryAt : Option Int
  createdAt : Int
deriving Repr, DecidableEq

/-- DLQ row (internal/db/models.go `DeadLetterNotification`). -/
structure DeadLetterNotification where
  id : String
  originalNotificationId : String
  tenantId : String
  userId : String
  channel : String
  payload : String
  attempts : Int
  lastError : String
  status : String
  retriedNotificationId : Option String
  createdAt : Int
deriving Repr, DecidableEq

/-- The durable store: the two tables of the persisted state layout. -/
structure Store where
  notifications : List Notification
  deadLetters : List DeadLetterNotification
deriving Repr, DecidableEq

/-- CreateNotification (repository.go): INSERT INTO notifications. -/
def Store.createNotification (s : Store) (n : Notification) : Store :=
  { s with notifications := s.notifications ++ [n] }

/-- The row effect of UpdateNotificationStatus (repository.go):
UPDATE notifications SET status, attempt, error_message, next_retry_at
WHERE id = given id.  The update is unconditional on the current row state. -/
def updateRows (id status : String) (attempt : Int) (errorMsg : Option String)
    (nextRetryAt : Option Int) (rows : List Notification) : List Notification :=
  rows.map fun r =>
    if r.id = id then
      { r with status := status, attempt := attempt,
               errorMessage := errorMsg, nextRetryAt := nextRetryAt }
    else r

def Store.updateNotificationStatus (s : Store) (id status : String) (attempt : Int)
    (errorMsg : Option String) (nextRetryAt : Option Int) : Store :=
  { s with notifications := updateRows id status attempt errorMsg nextRetryAt s.notifications }

/-- The WHERE filter of GetPendingNotifications (repository.go):
status = pending AND (next_retry_at IS NULL OR next_retry_at <= NOW()). -/
def notificationDue (now : Int) (r : Notification) : Bool :=
  r.status = StatusPending && (match r.nextRetryAt with
    | none => true
    | some t => t ≤ now)

/-- GetPendingNotifications (repository.go): due pending rows in
created_at ascending order (list order, see header comment), LIMIT. -/
def Store.getPendingNotifications (s : Store) (now : Int) (limit : Nat) :
    List Notification :=
  (s.notifications.filter (notificationDue now)).take limit

/-- MoveToDeadLetter (repository.go): in one transaction, insert a DLQ row
copied from the in-memory notification (attempts := notif.Attempt) and
UPDATE notifications SET status = dead_lettered WHERE id — note the update
touches only the status column. -/
def Store.moveToDeadLetter (s : Store) (freshDlqId : String) (now : Int)
    (notif : Notification) (lastError : String) : Store × DeadLetterNotification :=
  let dlq : DeadLetterNotification :=
    { id := freshDlqId
      originalNotificationId := notif.id
      tenantId := notif.tenantId
      userId := notif.userId
      channel := notif.channel
      payload := notif.payload
      attempts := notif.attempt
      lastError := lastError
      status := DLQStatusPending
      retriedNotificationId := none
      createdAt := now }
  ({ notifications := s.notifications.map fun r =>
       if r.id = notif.id then { r with status := StatusDeadLettered } else r
     deadLetters := s.deadLetters ++ [dlq] }, dlq)

/-- GetNotification (repository.go): SELECT ... WHERE id. -/
def Store.getNotification (s : Store) (id : String) : Option Notification :=
  s.notifications.find? fun r => r.id = id

/-- GetDeadLetter (repository.go): SELECT ... WHERE id. -/
def Store.getDeadLetter (s : Store) (id : String) : Option DeadLetterNotification :=
  s.deadLetters.find? fun d => d.id = id

/-- RetryDeadLetter (repository.go): fetch the DLQ row, fail unless its
dlq-status is pending, then in one transaction insert a fresh pending
notification (attempt 0, payload copied) and mark the DLQ row retried
pointing at the new notification. -/
def Store.retryDeadLetter (s : Store) (freshId : String) (now : Int)
    (dlqId : String) : Except String (Store × Notification) :=
  match s.getDeadLetter dlqId with
  | none => .error ("dead letter not found: " ++ dlqId)
  | some dlq =>
    if dlq.status ≠ DLQStatusPending then
      .error ("dead letter already processed: " ++ dlq.status)
    else
      let newNotif : Notification :=
        { id := freshId
          tenantId := dlq.tenantId
          userId := dlq.userId
          channel := dlq.channel
          payload := dlq.payload
          status := StatusPending
          attempt := 0
          errorMessage := none
          nextRetryAt := none
          createdAt := now }
      .ok ({ notifications := s.notifications ++ [newNotif]
             deadLetters := s.deadLetters.map fun d =>
               if d.id = dlqId then
                 { d with status := DLQStatusRetried,
                          retriedNotificationId := some freshId }
               else d }, newNotif)

/-! ## Worker (internal/worker) -/

/-- Worker configuration (worker.go `Config`); MaxRetries is the
max_attempts cap of the spec. -/
structure WorkerConfig where
  pollInterval : Int
  batchSize : Nat
  maxRetries : Int
deriving Repr, DecidableEq

/-- The backoff table of calculateNextRetry, in seconds:
attempt 1 → 1 min, attempt 2 → 5 min, attempt 3 → 15 min. -/
def retryDelays : List Int := [60, 300, 900]

/-- The schedule read off the delay table: 1 min after attempt 1, 5 min
after attempt 2, 15 min from attempt 3 on (see calculateNextRetry_eq). -/
def backoffDelay (a : Int) : Int :=
  if a = 1 then 60 else if a = 2 then 300 else 900

/-- calculateNextRetry (worker.go): index attempt-1 into the delay table,
clamped to the last entry.  Go would panic on a negative index (attempt
< 1, which the worker never produces); the model returns none there. -/
def calculateNextRetry (now attempt : Int) : Option Int :=
  let idx0 := attempt - 1
  let idx := if (retryDelays.length : Int) ≤ idx0 then (retryDelays.length : Int) - 1 else idx0
  if idx < 0 then none
  else some (now + retryDelays.getD idx.toNat 0)

/-- A sender outcome: none on success, some message on failure
(the Go `error` return of Sender.Send). -/
abbrev SendOutcome := Option String

/-- processNotification (worker.go): mark processing (error ignored),
invoke the sender, then on success mark sent with attempt+1 and no error
and no next_retry_at; on failure either move to the dead-letter queue
(attempt+1 ≥ MaxRetries) or re-schedule as pending with backoff. -/
def processNotification (cfg : WorkerConfig) (now : Int) (freshDlqId : String)
    (sendResult : SendOutcome) (s : Store) (notif : Notification) : Store :=
  let s1 := s.updateNotificationStatus notif.id StatusProcessing notif.attempt
              none notif.nextRetryAt
  let newAttempt := notif.attempt + 1
  match sendResult with
  | none => s1.updateNotificationStatus notif.id StatusSent newAttempt none none
  | some errMsg =>
    if cfg.maxRetries ≤ newAttempt then
      (s1.moveToDeadLetter freshDlqId now notif errMsg).1
    else
      match calculateNextRetry now newAttempt with
      | some nextRetry =>
        s1.updateNotificationStatus notif.id StatusPending newAttempt
          (some errMsg) (some nextRetry)
      | none => s1

/-- processBatch (worker.go): fetch the due pending batch once, then
process each notification in order against the evolving store.  The
sender outcome and the fresh DLQ id are given per notification. -/
def processBatch (cfg : WorkerConfig) (now : Int) (dlqIdFor : String → String)
    (send : Notification → SendOutcome) (s : Store) : Store :=
  let batch := s.getPendingNotifications now cfg.batchSize
  batch.foldl (fun st n => processNotification cfg now (dlqIdFor n.id) (send n) st n) s

/-! ## Router (MultiSender, internal/worker) -/

/-- A channel sender as seen by the router: SupportsChannel plus the
outcome its Send returns for a notification. -/
structure SenderModel where
  supportsChannel : String → Bool
  send : Notification → SendOutcome

/-- MultiSender.Send: the first sender whose SupportsChannel is true
handles the notification; with no supporting sender the result is the
error "no sender found for channel: ...". -/
def multiSend (senders : List SenderModel) (n : Notification) : SendOutcome :=
  match senders.find? (fun sd => sd.supportsChannel n.channel) with
  | some sd => sd.send n
  | none => some ("no sender found for channel: " ++ n.channel)

/-! ## Circuit breaker (internal/circuitbreaker/circuitbreaker.go) -/

inductive CBState
  | StateClosed
  | StateOpen
  | StateHalfOpen
deriving Repr, DecidableEq

structure CBConfig where
  maxFailures : Int
  recoveryTimeout : Int
  halfOpenMaxRequests : Int
deriving Repr, DecidableEq

structure CB where
  state : CBState
  failureCount : Int
  successCount : Int
  lastFailureTime : Int
  lastStateChange : Int
  halfOpenRequests : Int
  totalRequests : Int
  totalFailures : Int
  totalSuccesses : Int
  totalRejected : Int
deriving Repr, DecidableEq

/-- New (circuitbreaker.go): starts closed with zero counters. -/
def newCircuitBreaker (now : Int) : CB :=
  { state := .StateClosed, failureCount := 0, successCount := 0
    lastFailureTime := 0, lastStateChange := now, halfOpenRequests := 0
    totalRequests := 0, totalFailures := 0, totalSuccesses := 0, totalRejected := 0 }

/-- transitionTo: no-op when already in the target state, else switch
state, stamp the change time and clear halfOpenRequests. -/
def CB.transitionTo (cb : CB) (now : Int) (newState : CBState) : CB :=
  if cb.state = newState then cb
  else { cb with state := newState, lastStateChange := now, halfOpenRequests := 0 }

/-- Allow: closed passes; open admits a probe once recoveryTimeout has
elapsed since the last failure (moving to half-open); half-open admits up
to halfOpenMaxRequests probes. -/
def CB.allow (cfg : CBConfig) (now : Int) (cb : CB) : Bool × CB :=
  let cb := { cb with totalRequests := cb.totalRequests + 1 }
  match cb.state with
  | .StateClosed => (true, cb)
  | .StateOpen =>
    if cfg.recoveryTimeout ≤ now - cb.lastFailureTime then
      let cb := cb.transitionTo now .StateHalfOpen
      (true, { cb with halfOpenRequests := 1 })
    else
      (false, { cb with totalRejected := cb.totalRejected + 1 })
  | .StateHalfOpen =>
    if cb.halfOpenRequests < cfg.halfOpenMaxRequests then
      (true, { cb with halfOpenRequests := cb.halfOpenRequests + 1 })
    else
      (false, { cb with totalRejected := cb.totalRejected + 1 })

/-- RecordSuccess: count it, zero the consecutive-failure counter, and
close the circuit when in half-open. -/
def CB.recordSuccess (cb : CB) (now : Int) : CB :=
  let cb := { cb with totalSuccesses := cb.totalSuccesses + 1
                      successCount := cb.successCount + 1
                      failureCount := 0 }
  if cb.state = .StateHalfOpen then cb.transitionTo now .StateClosed else cb

/-- RecordFailure: count it; in closed, open the circuit once the
consecutive-failure count reaches MaxFailures; in half-open, re-open. -/
def CB.recordFailure (cfg : CBConfig) (cb : CB) (now : Int) : CB :=
  let cb := { cb with totalFailures := cb.totalFailures + 1
                      failureCount := cb.failureCount + 1
                      lastFailureTime := now }
  match cb.state with
  | .StateClosed =>
    if cfg.maxFailures ≤ cb.failureCount then cb.transitionTo now .StateOpen else cb
  | .StateHalfOpen => cb.transitionTo now .StateOpen
  | .StateOpen => cb

/-- Reset: operator override, returns the breaker to closed and zeroes
the working counters. -/
def CB.reset (cb : CB) (now : Int) : CB :=
  let cb := cb.transitionTo now .StateClosed
  { cb with failureCount := 0, successCount := 0, halfOpenRequests := 0 }

/-- The operations of the breaker's step relation. -/
inductive CBOp
  | allowOp
  | recordSuccessOp
  | recordFailureOp
  | resetOp
deriving Repr, DecidableEq

def cbStep (cfg : CBConfig) (now : Int) (op : CBOp) (cb : CB) : CB :=
  match op with
  | .allowOp => (CB.allow cfg now cb).2
  | .recordSuccessOp => cb.recordSuccess now
  | .recordFailureOp => CB.recordFailure cfg cb now
  | .resetOp => cb.reset now

/-! ## Idempotency cache (internal/redis/idempotency.go)

The cache maps a (tenant, caller-key) pair to either the reservation
sentinel "processing" or a stored acceptance outcome
{notification_id, status_code}.  TTL expiry is outside the model: an
entry present in the cache value stands for a live (unexpired) key. -/

inductive IdemValue
  | processingMarker
  | result (notificationId : String) (statusCode : Int)
deriving Repr, DecidableEq

abbrev IdemCache := List ((String × String) × IdemValue)

def idemLookup (c : IdemCache) (tenant key : String) : Option IdemValue :=
  (c.find? fun e => e.1 = (tenant, key)).map (·.2)

/-- Redis SET: overwrite the value when the key exists, else append. -/
def idemSet (c : IdemCache) (tenant key : String) (v : IdemValue) : IdemCache :=
  if (c.find? fun e => e.1 = (tenant, key)).isSome then
    c.map fun e => if e.1 = (tenant, key) then (e.1, v) else e
  else
    c ++ [((tenant, key), v)]

inductive CheckOutcome
  | cached (notificationId : String) (statusCode : Int)
  | duplicate
  | reserved
deriving Repr, DecidableEq

/-- CheckOrReserve: return a cached outcome when present, signal
duplicate when the reservation sentinel is present, else reserve the key
(SET NX of the sentinel) and continue. -/
def checkOrReserve (c : IdemCache) (tenant key : String) : CheckOutcome × IdemCache :=
  match idemLookup c tenant key with
  | some .processingMarker => (.duplicate, c)
  | some (.result nid code) => (.cached nid code, c)
  | none => (.reserved, idemSet c tenant key .processingMarker)

/-! ## Acceptance API (internal/api/handler.go) -/

/-- Submission envelope.  Tenant and user identifiers are opaque strings
(their UUID well-formedness check is not modelled; the claims below all
concern well-formed submissions). -/
structure Envelope where
  tenantId : String
  userId : String
  channel : String
  payload : String
deriving Repr, DecidableEq

/-- The observable pieces of the HTTP response the claims talk about. -/
structure HttpResponse where
  status : Int
  bodyId : Option String
  idempotencyReplayed : Bool
deriving Repr, DecidableEq

/-- CreateNotification (handler.go), with the idempotency service
configured and reachable and no SQS producer.  An empty idemKey models a
request without the Idempotency-Key header.  On a cache hit the handler
replays the STORED status code and sets X-Idempotency-Replayed: true; a
fresh acceptance persists a pending notification with attempt 0 and then
stores the outcome {freshId, 201} under the key. -/
def createNotification (freshId : String) (now : Int) (idemKey : String)
    (env : Envelope) (cache : IdemCache) (s : Store) :
    HttpResponse × IdemCache × Store :=
  if env.tenantId = "" ∨ env.userId = "" ∨ env.channel = "" then
    (⟨400, none, false⟩, cache, s)
  else if ¬(env.channel = ChannelEmail ∨ env.channel = ChannelSMS ∨
            env.channel = ChannelWebhook) then
    (⟨400, none, false⟩, cache, s)
  else
    let afterCheck : (HttpResponse × IdemCache × Store) ⊕ IdemCache :=
      if idemKey ≠ "" then
        match checkOrReserve cache env.tenantId idemKey with
        | (.duplicate, c) => Sum.inl (⟨409, none, false⟩, c, s)
        | (.cached nid code, c) => Sum.inl (⟨code, some nid, true⟩, c, s)
        | (.reserved, c) => Sum.inr c
      else Sum.inr cache
    match afterCheck with
    | .inl out => out
    | .inr c =>
      let notif : Notification :=
        { id := freshId, tenantId := env.tenantId, userId := env.userId
          channel := env.channel, payload := env.payload
          status := StatusPending, attempt := 0
          errorMessage := none, nextRetryAt := none, createdAt := now }
      let s1 := s.createNotification notif
      let c1 := idemSet c env.tenantId idemKey (.result freshId 201)
      (⟨201, some freshId, false⟩, c1, s1)

/-- The allow-list of the operator PATCH /v1/notifications/id/status. -/
def validPatchStatuses : List String :=
  [StatusPending, StatusProcessing, StatusSent, StatusFailed]

/-- UpdateNotificationStatus handler (handler.go): validate the target
status against the allow-list and reject negative attempts, then call the
repository update (which is unconditional on the current status) with a
nil next_retry_at.  Returns the HTTP status and the resulting store. -/
def updateNotificationStatusHandler (s : Store) (id status : String)
    (attempt : Int) (errorMsg : Option String) : Int × Store :=
  if ¬ validPatchStatuses.contains status then (400, s)
  else if attempt < 0 then (400, s)
  else
    let s1 := s.updateNotificationStatus id status attempt errorMsg none
    if s.notifications.any (fun r => r.id = id) then (200, s1)
    else (500, s1)

/-! ## Rate limiter (internal/redis, AllowN) -/

structure RLConfig where
  limit : Int
  window : Int
deriving Repr, DecidableEq

structure RLResult where
  allowed : Bool
  remaining : Int
  resetAt : Int
deriving Repr, DecidableEq

/-- The pruning step of AllowN: ZRemRangeByScore removes the scores in
[0, windowStart]; entries survive when negative or newer than the window
start. -/
def pruneEntries (windowStart : Int) (entries : List Int) : List Int :=
  entries.filter fun t => decide (t < 0) || decide (windowStart < t)

/-- The member scores ZAdd inserts for one admitted call:
now + i for i < n (the i offset makes members distinct). -/
def newScores (now : Int) (n : Nat) : List Int :=
  (List.range n).map fun (i : Nat) => now + (i : Int)

/-- AllowN (one key): prune entries older than the window, count the
survivors (ZCard), reject when count + n would exceed the limit (adding
nothing), else admit and record n new scored members. -/
def allowN (cfg : RLConfig) (now : Int) (n : Nat) (entries : List Int) :
    RLResult × List Int :=
  let windowStart := now - cfg.window
  let resetAt := now + cfg.window
  let pruned := pruneEntries windowStart entries
  let currentCount : Int := pruned.length
  let remaining := cfg.limit - currentCount
  if cfg.limit < currentCount + n then
    ({ allowed := false, remaining := max 0 remaining, resetAt := resetAt }, pruned)
  else
    ({ allowed := true, remaining := remaining - n, resetAt := resetAt },
     pruned ++ newScores now n)

/-- One key's trace state: the Redis sorted set plus the model's record
of every admitted score (n scores per admitted call). -/
structure RLTraceState where
  entries : List Int
  admitted : List Int
deriving Repr, DecidableEq

def rlStep (cfg : RLConfig) (st : RLTraceState) (call : Int × Nat) : RLTraceState :=
  let out := allowN cfg call.1 call.2 st.entries
  if out.1.allowed then
    { entries := out.2, admitted := st.admitted ++ newScores call.1 call.2 }
  else
    { entries := out.2, admitted := st.admitted }

/-- A sequence of AllowN calls ((time, n) pairs) against one key,
starting from an empty window. -/
def rlRun (cfg : RLConfig) (calls : List (Int × Nat)) : RLTraceState :=
  calls.foldl (rlStep cfg) ⟨[], []⟩

/-- Membership of a score in the sliding window (T - window, T]. -/
def inWindow (cfg : RLConfig) (T x : Int) : Bool :=
  decide (T - cfg.window < x) && decide (x ≤ T)

/-! ## Concrete fixtures used by the closed theorems below -/

/-- A well-formed submission envelope. -/
def envT : Envelope := ⟨"t1", "u1", "email", "p"⟩

/-- Worker configured with max_attempts = 3 (the dead-lettering scenario
of the spec). -/
def cfgT : WorkerConfig := ⟨5, 5, 3⟩

/-- A freshly accepted notification: pending, attempt 0. -/
def notifT : Notification :=
  ⟨"n1", "t1", "u1", "email", "p", StatusPending, 0, none, none, 0⟩

def storeT : Store := ⟨[notifT], []⟩

/-- A sender that fails every attempt. -/
def failSendT : Notification → SendOutcome := fun _ => some "provider down"

/-- Deterministic fresh DLQ identifiers for the model runs. -/
def dlqIdT : String → String := fun i => i ++ "-dlq"

/-- Three worker tick-cycles over storeT with the always-failing sender,
at times past each scheduled backoff. -/
def runDeadLetterT : Store :=
  processBatch cfgT 2000 dlqIdT failSendT
    (processBatch cfgT 1000 dlqIdT failSendT
      (processBatch cfgT 0 dlqIdT failSendT storeT))

/-- A notification whose row is already sent. -/
def sentRowT : Notification :=
  ⟨"n9", "t1", "u1", "email", "p", StatusSent, 1, none, none, 0⟩

def sSentT : Store := ⟨[sentRowT], []⟩

/-- The store of runDeadLetterT just before the third (dead-lettering)
cycle: one pending row with attempt 2 and a scheduled retry. -/
def notifCycle3T : Notification :=
  ⟨"n1", "t1", "u1", "email", "p", StatusPending, 2,
    some "provider down", some 1300, 0⟩

def sCycle3T : Store := ⟨[notifCycle3T], []⟩

/-- A pending DLQ row, and a store holding it, for the retry claims. -/
def dlqRowT : DeadLetterNotification :=
  ⟨"d1", "n1", "t1", "u1", "email", "p", 2, "provider down",
    DLQStatusPending, none, 2000⟩

def sDlqT : Store := ⟨[], [dlqRowT]⟩

/-- A breaker configured to trip after one failure, and the open breaker
it produces. -/
def cfgCBT : CBConfig := ⟨1, 30, 1⟩

def cbOpenT : CB := CB.recordFailure cfgCBT (newCircuitBreaker 0) 0

/-- A breaker sitting in half-open with one admitted probe. -/
def cbHalfT : CB := (CB.allow cfgCBT 30 cbOpenT).2

/-- A router holding only the webhook sender (SupportsChannel is channel
= webhook, as in webhook_sender.go); its provider succeeds. -/
def webhookOnlyT : SenderModel :=
  ⟨fun c => c = ChannelWebhook, fun _ => none⟩

/-- An sms notification no sender of [webhookOnlyT] supports. -/
def notifSmsT : Notification :=
  ⟨"n5", "t1", "u1", "sms", "p", StatusPending, 0, none, none, 0⟩

def sSmsT : Store := ⟨[notifSmsT], []⟩

/-- Rate limiter fixture: limit 2 in a 10-second window. -/
def cfgRLT : RLConfig := ⟨2, 10⟩

/-- A store holding one pending and one sent row (distinct ids). -/
def sMixT : Store := ⟨[notifT, sentRowT], []⟩

/-- Claim C5 as frozen: over the step relation made of Allow,
RecordSuccess, RecordFailure and Reset, (a) the state becomes closed
again after leaving closed exactly when a half-open probe success is
recorded, and (b) closed moves to open only when the consecutive-failure
count reaches max_failures. -/
def cbClaimFive (cfg : CBConfig) : Prop :=
  (∀ (cb : CB) (op : CBOp) (now : Int), cb.state ≠ CBState.StateClosed →
    ((cbStep cfg now op cb).state = CBState.StateClosed ↔
      (op = CBOp.recordSuccessOp ∧ cb.state = CBState.StateHalfOpen)))
  ∧ (∀ (cb : CB) (op : CBOp) (now : Int), cb.state = CBState.StateClosed →
    (cbStep cfg now op cb).state = CBState.StateOpen →
      op = CBOp.recordFailureOp ∧ cfg.maxFailures ≤ cb.failureCount + 1)

/-! ## Helper lemmas -/

theorem find?_map_eq {α : Type} (f : α → α) (p : α → Bool) (l : List α)
    (hp : ∀ a, p (f a) = p a) : (l.map f).find? p = (l.find? p).map f := by
  induction l with
  | nil => rfl
  | cons x xs ih =>
    by_cases hx : p x = true
    · simp [List.find?, hp x, hx]
    · simp only [Bool.not_eq_true] at hx
      simp [List.find?, hp x, hx, ih]

theorem updateRow_id (id status : String) (attempt : Int) (em : Option String)
    (nra : Option Int) (a : Notification) :
    ((fun r => if r.id = id then
        { r with status := status, attempt := attempt,
                 errorMessage := em, nextRetryAt := nra }
      else r) a).id = a.id := by
  by_cases h : a.id = id <;> simp [h]

/-- Reading a row back after the unconditional status update. -/
theorem getNotification_update {s : Store} {id : String} {row : Notification}
    (hrow : s.getNotification id = some row) (status : String) (attempt : Int)
    (em : Option String) (nra : Option Int) :
    (s.updateNotificationStatus id status attempt em nra).getNotification id =
      some { row with
              status := status
              attempt := attempt
              errorMessage := em
              nextRetryAt := nra } := by
  unfold Store.getNotification Store.updateNotificationStatus updateRows at *
  rw [find?_map_eq]
  · rw [hrow]
    have hid : row.id = id := by
      simpa using List.find?_some hrow
    simp [hid]
  · intro a
    by_cases h : a.id = id <;> simp [h]

/-- Reading a row back after the status-only update of MoveToDeadLetter. -/
theorem getNotification_move {s : Store} {notif row : Notification}
    (hrow : s.getNotification notif.id = some row) (dlqId : String) (now : Int)
    (err : String) :
    ((s.moveToDeadLetter dlqId now notif err).1).getNotification notif.id =
      some { row with status := StatusDeadLettered } := by
  unfold Store.getNotification Store.moveToDeadLetter at *
  rw [find?_map_eq]
  · rw [hrow]
    have hid : row.id = notif.id := by
      simpa using List.find?_some hrow
    simp [hid]
  · intro a
    by_cases h : a.id = notif.id <;> simp [h]

/-- The backoff values of calculateNextRetry for positive attempts:
1 min after attempt 1, 5 min after attempt 2, 15 min from attempt 3 on. -/
theorem calculateNextRetry_eq (now a : Int) (h : 1 ≤ a) :
    calculateNextRetry now a = some (now + backoffDelay a) := by
  unfold calculateNextRetry retryDelays backoffDelay
  by_cases h1 : a = 1
  · subst h1; rfl
  · by_cases h2 : a = 2
    · subst h2; rfl
    · by_cases h3 : a = 3
      · subst h3; rfl
      · have h4 : (4 : Int) ≤ a := by omega
        rw [if_neg h1, if_neg h2]
        have hlen : (([60, 300, 900] : List Int).length : Int) = 3 := by norm_num
        simp only [hlen]
        rw [if_pos (by omega : (3 : Int) ≤ a - 1)]
        norm_num
        rfl

/-- Success branch of processNotification: the row becomes sent with the
incremented attempt and cleared error and retry-time fields. -/
theorem processNotification_sent (cfg : WorkerConfig) (now : Int) (dlqId : String)
    {s : Store} {notif row : Notification}
    (hrow : s.getNotification notif.id = some row) :
    (processNotification cfg now dlqId none s notif).getNotification notif.id =
      some { row with
              status := StatusSent
              attempt := notif.attempt + 1
              errorMessage := none
              nextRetryAt := none } := by
  unfold processNotification
  have h1 := getNotification_update hrow StatusProcessing notif.attempt none notif.nextRetryAt
  exact getNotification_update h1 StatusSent (notif.attempt + 1) none none

/-- Retry branch of processNotification: below the cap the row is
re-scheduled pending with the backoff delay for the new attempt. -/
theorem processNotification_retry (cfg : WorkerConfig) (now : Int) (dlqId msg : String)
    {s : Store} {notif row : Notification}
    (hrow : s.getNotification notif.id = some row)
    (ha : 0 ≤ notif.attempt) (hlt : notif.attempt + 1 < cfg.maxRetries) :
    (processNotification cfg now dlqId (some msg) s notif).getNotification notif.id =
      some { row with
              status := StatusPending
              attempt := notif.attempt + 1
              errorMessage := some msg
              nextRetryAt := some (now + backoffDelay (notif.attempt + 1)) } := by
  have hc : ¬ (cfg.maxRetries ≤ notif.attempt + 1) := by omega
  have hcalc := calculateNextRetry_eq now (notif.attempt + 1) (by omega)
  have h1 := getNotification_update hrow StatusProcessing notif.attempt none notif.nextRetryAt
  have h2 := getNotification_update h1 StatusPending (notif.attempt + 1) (some msg)
    (some (now + backoffDelay (notif.attempt + 1)))
  simp only [processNotification, hcalc, if_neg hc]
  exact h2

/-- Dead-letter branch of processNotification: at or above the cap the
atomic move runs — the DLQ row (carrying attempts := notif.Attempt, the
pre-increment count) is appended and the notification's status becomes
dead_lettered while its other columns keep the values written by the
processing mark. -/
theorem processNotification_dlq (cfg : WorkerConfig) (now : Int) (dlqId msg : String)
    {s : Store} {notif row : Notification}
    (hrow : s.getNotification notif.id = some row)
    (hge : cfg.maxRetries ≤ notif.attempt + 1) :
    (processNotification cfg now dlqId (some msg) s notif).getNotification notif.id =
      some { row with
              status := StatusDeadLettered
              attempt := notif.attempt
              errorMessage := none
              nextRetryAt := notif.nextRetryAt }
    ∧ (processNotification cfg now dlqId (some msg) s notif).deadLetters =
      s.deadLetters ++ [⟨dlqId, notif.id, notif.tenantId, notif.userId,
        notif.channel, notif.payload, notif.attempt, msg,
        DLQStatusPending, none, now⟩] := by
  have hc : cfg.maxRetries ≤ notif.attempt + 1 := hge
  have h1 := getNotification_update hrow StatusProcessing notif.attempt none notif.nextRetryAt
  have h2 := getNotification_move h1 dlqId now msg
  simp only [processNotification, if_pos hc]
  exact ⟨h2, rfl⟩

/-- Rows with a different id are untouched by the status update. -/
theorem mem_updateRows_of_ne {r : Notification} {id : String}
    {rows : List Notification} (status : String) (attempt : Int)
    (em : Option String) (nra : Option Int)
    (hr : r ∈ rows) (hne : r.id ≠ id) :
    r ∈ updateRows id status attempt em nra rows := by
  unfold updateRows
  have h := List.mem_map_of_mem
    (fun x : Notification => if x.id = id then
      { x with status := status, attempt := attempt,
               errorMessage := em, nextRetryAt := nra }
    else x) hr
  simpa [hne] using h

/-- processNotification only rewrites rows carrying the processed
notification's id; every other row is left in place. -/
theorem processNotification_preserves (cfg : WorkerConfig) (now : Int)
    (dlqId : String) (res : SendOutcome) (st : Store) (notif : Notification)
    {r : Notification} (hr : r ∈ st.notifications) (hne : r.id ≠ notif.id) :
    r ∈ (processNotification cfg now dlqId res st notif).notifications := by
  have h1 : r ∈ (st.updateNotificationStatus notif.id StatusProcessing
      notif.attempt none notif.nextRetryAt).notifications :=
    mem_updateRows_of_ne _ _ _ _ hr hne
  match res with
  | none =>
    simp only [processNotification]
    exact mem_updateRows_of_ne _ _ _ _ h1 hne
  | some errMsg =>
    by_cases hc : cfg.maxRetries ≤ notif.attempt + 1
    · simp only [processNotification, if_pos hc]
      unfold Store.moveToDeadLetter
      have h2 := List.mem_map_of_mem
        (fun x : Notification => if x.id = notif.id then
          { x with status := StatusDeadLettered } else x) h1
      simpa [hne] using h2
    · simp only [processNotification, if_neg hc]
      cases hcr : calculateNextRetry now (notif.attempt + 1) with
      | some nextRetry =>
        simp only [hcr]
        exact mem_updateRows_of_ne _ _ _ _ h1 hne
      | none =>
        simp only [hcr]
        exact h1

/-- Folding processNotification over a batch of notifications whose ids
all differ from r's id keeps r in the table. -/
theorem foldl_process_preserves (cfg : WorkerConfig) (now : Int)
    (dlqIdFor : String → String) (send : Notification → SendOutcome)
    (batch : List Notification) :
    ∀ (st : Store) (r : Notification), r ∈ st.notifications →
      (∀ n ∈ batch, n.id ≠ r.id) →
      r ∈ (batch.foldl
        (fun st n => processNotification cfg now (dlqIdFor n.id) (send n) st n)
        st).notifications := by
  induction batch with
  | nil => intro st r hr _; exact hr
  | cons n ns ih =>
    intro st r hr hids
    have hne : r.id ≠ n.id := fun h => hids n (List.mem_cons_self n ns) h.symm
    have h1 := processNotification_preserves cfg now (dlqIdFor n.id) (send n)
      st n hr hne
    exact ih _ r h1 (fun m hm => hids m (List.mem_cons_of_mem n hm))

/-- The only Bool content of the due filter we need: selected rows are
pending. -/
theorem notificationDue_status {now : Int} {r : Notification}
    (h : notificationDue now r = true) : r.status = StatusPending := by
  unfold notificationDue at h
  rcases Bool.and_eq_true_iff.mp h with ⟨h1, -⟩
  simpa using h1

/-- MultiSender.Send when no sender supports the channel: the routing
error is returned. -/
theorem multiSend_none (senders : List SenderModel) (n : Notification)
    (h : ∀ sd ∈ senders, sd.supportsChannel n.channel = false) :
    multiSend senders n = some ("no sender found for channel: " ++ n.channel) := by
  unfold multiSend
  have hfind : senders.find? (fun sd => sd.supportsChannel n.channel) = none := by
    rw [List.find?_eq_none]
    intro sd hsd
    simp [h sd hsd]
  rw [hfind]

/-- Looking up a key after reserving and then storing under it yields the
stored outcome, provided the key was initially absent. -/
theorem idemLookup_set_set (c : IdemCache) (t k : String) (v w : IdemValue)
    (h : idemLookup c t k = none) :
    idemLookup (idemSet (idemSet c t k v) t k w) t k = some w := by
  have hfind : c.find? (fun e => e.1 = (t, k)) = none := by
    unfold idemLookup at h
    exact Option.map_eq_none'.mp h
  have hset1 : idemSet c t k v = c ++ [((t, k), v)] := by
    unfold idemSet
    rw [hfind]
    rfl
  have hfind2 : (c ++ [((t, k), v)]).find? (fun e => e.1 = (t, k)) =
      some ((t, k), v) := by
    rw [List.find?_append, hfind]
    simp [List.find?]
  have hset2 : idemSet (c ++ [((t, k), v)]) t k w =
      (c ++ [((t, k), v)]).map (fun e => if e.1 = (t, k) then (e.1, w) else e) := by
    unfold idemSet
    rw [hfind2]
    rfl
  rw [hset1, hset2]
  unfold idemLookup
  rw [find?_map_eq _ _ _ (fun a => by by_cases ha : a.1 = (t, k) <;> simp [ha])]
  rw [hfind2]
  simp

/-! ## Rate limiter lemmas -/

/-- Pruning at time t keeps every score inside the live window, so counts
of live scores agree between the raw set and the pruned set. -/
theorem count_pruneEntries_eq {cfg : RLConfig} {entries : List Int} {t v : Int}
    (hv : t - cfg.window < v) :
    (pruneEntries (t - cfg.window) entries).count v = entries.count v := by
  unfold pruneEntries
  exact List.count_filter (by simp [hv])

/-- The admitted-history/state count invariant survives moving the lower
time bound forward. -/
theorem count_le_pruned {cfg : RLConfig} {admitted entries : List Int} {t0 t : Int}
    (hts : t0 ≤ t)
    (hinv : ∀ v : Int, t0 - cfg.window < v → admitted.count v ≤ entries.count v) :
    ∀ v : Int, t - cfg.window < v →
      admitted.count v ≤ (pruneEntries (t - cfg.window) entries).count v := by
  intro v hv
  have h1 : admitted.count v ≤ entries.count v := hinv v (by omega)
  have h2 := @count_pruneEntries_eq cfg entries t v hv
  omega

/-- Every admitted score inside the window (T - W, T], for T at or after
the current call time, is still present in the pruned set, so the
windowed portion of the history is bounded by the pruned count. -/
theorem filter_window_le_pruned {cfg : RLConfig} {admitted entries : List Int}
    {t0 t T : Int} (hts : t0 ≤ t) (htT : t ≤ T)
    (hinv : ∀ v : Int, t0 - cfg.window < v → admitted.count v ≤ entries.count v) :
    (admitted.filter (inWindow cfg T)).length ≤
      (pruneEntries (t - cfg.window) entries).length := by
  apply List.Subperm.length_le
  rw [List.subperm_ext_iff]
  intro a ha
  have hWin : inWindow cfg T a = true := List.of_mem_filter ha
  have haT : T - cfg.window < a ∧ a ≤ T := by
    unfold inWindow at hWin
    rcases Bool.and_eq_true_iff.mp hWin with ⟨h1, h2⟩
    exact ⟨by simpa using h1, by simpa using h2⟩
  have h1 : (admitted.filter (inWindow cfg T)).count a ≤ admitted.count a :=
    List.Sublist.count_le (List.filter_sublist admitted) a
  have h2 : admitted.count a ≤ entries.count a := hinv a (by omega)
  have h3 : (pruneEntries (t - cfg.window) entries).count a = entries.count a :=
    count_pruneEntries_eq (by omega)
  omega

theorem newScores_length (t : Int) (n : Nat) : (newScores t n).length = n := by
  unfold newScores
  rw [List.length_map]
  exact List.length_range n

theorem newScores_le {t : Int} {n : Nat} {x : Int} (hx : x ∈ newScores t n) :
    t ≤ x := by
  simp only [newScores, List.mem_map, List.mem_range] at hx
  obtain ⟨i, -, hi⟩ := hx
  omega

/-- The rejection step: state shrinks to the pruned set, history is
unchanged. -/
theorem rlStep_reject (cfg : RLConfig) (t : Int) (n : Nat) (st : RLTraceState)
    (h : cfg.limit < ((pruneEntries (t - cfg.window) st.entries).length : Int) + n) :
    rlStep cfg st (t, n) =
      ⟨pruneEntries (t - cfg.window) st.entries, st.admitted⟩ := by
  unfold rlStep allowN
  simp only [if_pos h]
  simp

/-- The admission step: the n new scores join both the state and the
history. -/
theorem rlStep_admitted (cfg : RLConfig) (t : Int) (n : Nat) (st : RLTraceState)
    (h : ¬ cfg.limit < ((pruneEntries (t - cfg.window) st.entries).length : Int) + n) :
    rlStep cfg st (t, n) =
      ⟨pruneEntries (t - cfg.window) st.entries ++ newScores t n,
        st.admitted ++ newScores t n⟩ := by
  unfold rlStep allowN
  simp only [if_neg h]
  simp

/-- Induction core for the sliding-window bound: along any sequence of
calls with non-decreasing times, every window of the admitted history
holds at most limit scores. -/
theorem rlRun_window_aux (cfg : RLConfig) :
    ∀ (calls : List (Int × Nat)) (st : RLTraceState) (t0 : Int),
      (∀ c ∈ calls, t0 ≤ c.1) →
      List.Pairwise (fun a b : Int × Nat => a.1 ≤ b.1) calls →
      (∀ v : Int, t0 - cfg.window < v → st.admitted.count v ≤ st.entries.count v) →
      (∀ T : Int, ((st.admitted.filter (inWindow cfg T)).length : Int) ≤ cfg.limit) →
      ∀ T : Int,
        (((calls.foldl (rlStep cfg) st).admitted.filter (inWindow cfg T)).length : Int)
          ≤ cfg.limit := by
  intro calls
  induction calls with
  | nil =>
    intro st t0 _ _ _ h4 T
    exact h4 T
  | cons c rest ih =>
    intro st t0 hts hpw h3 h4 T
    obtain ⟨t, n⟩ := c
    rw [List.foldl_cons]
    rw [List.pairwise_cons] at hpw
    have htt0 : t0 ≤ t := hts (t, n) (List.mem_cons_self _ _)
    have hrest : ∀ c ∈ rest, t ≤ c.1 := fun c hc => hpw.1 c hc
    by_cases hadm : cfg.limit < ((pruneEntries (t - cfg.window) st.entries).length : Int) + n
    · rw [rlStep_reject cfg t n st hadm]
      exact ih ⟨pruneEntries (t - cfg.window) st.entries, st.admitted⟩ t hrest
        hpw.2 (count_le_pruned htt0 h3) h4 T
    · rw [rlStep_admitted cfg t n st hadm]
      refine ih ⟨pruneEntries (t - cfg.window) st.entries ++ newScores t n,
        st.admitted ++ newScores t n⟩ t hrest hpw.2 ?_ ?_ T
      · intro v hv
        rw [List.count_append, List.count_append]
        have := count_le_pruned htt0 h3 v hv
        omega
      · intro U
        rw [List.filter_append, List.length_append]
        by_cases hnw : (newScores t n).filter (inWindow cfg U) = []
        · rw [hnw]
          simpa using h4 U
        · obtain ⟨x, hx⟩ := List.exists_mem_of_ne_nil _ hnw
          have hxin : x ∈ newScores t n := List.mem_of_mem_filter hx
          have hxw : inWindow cfg U x = true := List.of_mem_filter hx
          have htU : t ≤ U := by
            have h1 := newScores_le hxin
            have h2 : x ≤ U := by
              unfold inWindow at hxw
              rcases Bool.and_eq_true_iff.mp hxw with ⟨-, h2⟩
              simpa using h2
            omega
          have hb1 : (st.admitted.filter (inWindow cfg U)).length ≤
              (pruneEntries (t - cfg.window) st.entries).length :=
            filter_window_le_pruned htt0 htU h3
          have hb2 : ((newScores t n).filter (inWindow cfg U)).length ≤ n := by
            have := List.length_filter_le (inWindow cfg U) (newScores t n)
            rw [newScores_length] at this
            exact this
          push_cast
          omega

/-! ## Claims -/

/-- C1 (counterexample): replaying an accepted submission with the same
Idempotency-Key does flag the response as replayed with the original id,
but the handler re-emits the STORED status code — 201, not the 200 the
claim requires. -/
theorem createNotification_replay_not_200 :
    ((createNotification "id2" 1 "k" envT
        (createNotification "id1" 0 "k" envT [] ⟨[], []⟩).2.1
        (createNotification "id1" 0 "k" envT [] ⟨[], []⟩).2.2).1.idempotencyReplayed
      = true)
    ∧ ((createNotification "id2" 1 "k" envT
        (createNotification "id1" 0 "k" envT [] ⟨[], []⟩).2.1
        (createNotification "id1" 0 "k" envT [] ⟨[], []⟩).2.2).1.bodyId = some "id1")
    ∧ ((createNotification "id2" 1 "k" envT
        (createNotification "id1" 0 "k" envT [] ⟨[], []⟩).2.1
        (createNotification "id1" 0 "k" envT [] ⟨[], []⟩).2.2).1.status ≠ 200) := by
  refine ⟨rfl, rfl, ?_⟩
  decide

/-- C1 (amended): a replayed acceptance within TTL carries the original
notification id and X-Idempotency-Replayed: true, persists no second
notification (exactly one row exists for the pair), and returns the
stored status code, which the acceptance path stores as 201 — so the
replay status is 201, not 200. -/
theorem createNotification_replay_amended (env : Envelope) (key fid1 fid2 : String)
    (now1 now2 : Int) (cache : IdemCache) (s : Store)
    (ht : ¬ env.tenantId = "") (hu : ¬ env.userId = "")
    (hch : env.channel = ChannelEmail ∨ env.channel = ChannelSMS ∨
      env.channel = ChannelWebhook)
    (hk : ¬ key = "")
    (hmiss : idemLookup cache env.tenantId key = none) :
    (createNotification fid1 now1 key env cache s).1.status = 201
    ∧ (createNotification fid1 now1 key env cache s).1.bodyId = some fid1
    ∧ (createNotification fid1 now1 key env cache s).2.2.notifications
        = s.notifications ++ [⟨fid1, env.tenantId, env.userId, env.channel,
            env.payload, StatusPending, 0, none, none, now1⟩]
    ∧ (createNotification fid2 now2 key env
          (createNotification fid1 now1 key env cache s).2.1
          (createNotification fid1 now1 key env cache s).2.2).1
        = ⟨201, some fid1, true⟩
    ∧ (createNotification fid2 now2 key env
          (createNotification fid1 now1 key env cache s).2.1
          (createNotification fid1 now1 key env cache s).2.2).2.2
        = (createNotification fid1 now1 key env cache s).2.2 := by
  have hcne : ¬ env.channel = "" := by
    rcases hch with h | h | h <;> rw [h] <;> decide
  have hval1 : ¬ (env.tenantId = "" ∨ env.userId = "" ∨ env.channel = "") := by
    push_neg
    exact ⟨ht, hu, hcne⟩
  have hcor1 : checkOrReserve cache env.tenantId key =
      (.reserved, idemSet cache env.tenantId key .processingMarker) := by
    unfold checkOrReserve
    rw [hmiss]
  have call1 : createNotification fid1 now1 key env cache s =
      (⟨201, some fid1, false⟩,
       idemSet (idemSet cache env.tenantId key .processingMarker)
         env.tenantId key (.result fid1 201),
       s.createNotification ⟨fid1, env.tenantId, env.userId, env.channel,
         env.payload, StatusPending, 0, none, none, now1⟩) := by
    simp only [createNotification, if_neg hval1, if_neg (not_not_intro hch),
      if_pos hk, hcor1]
  have hhit : idemLookup (idemSet (idemSet cache env.tenantId key .processingMarker)
      env.tenantId key (.result fid1 201)) env.tenantId key =
      some (.result fid1 201) :=
    idemLookup_set_set cache env.tenantId key .processingMarker (.result fid1 201) hmiss
  have hcor2 : checkOrReserve (idemSet (idemSet cache env.tenantId key
      .processingMarker) env.tenantId key (.result fid1 201)) env.tenantId key =
      (.cached fid1 201,
       idemSet (idemSet cache env.tenantId key .processingMarker)
         env.tenantId key (.result fid1 201)) := by
    unfold checkOrReserve
    rw [hhit]
  have call2 : createNotification fid2 now2 key env
      (idemSet (idemSet cache env.tenantId key .processingMarker)
        env.tenantId key (.result fid1 201))
      (s.createNotification ⟨fid1, env.tenantId, env.userId, env.channel,
        env.payload, StatusPending, 0, none, none, now1⟩) =
      (⟨201, some fid1, true⟩,
       idemSet (idemSet cache env.tenantId key .processingMarker)
         env.tenantId key (.result fid1 201),
       s.createNotification ⟨fid1, env.tenantId, env.userId, env.channel,
         env.payload, StatusPending, 0, none, none, now1⟩) := by
    simp only [createNotification, if_neg hval1, if_neg (not_not_intro hch),
      if_pos hk, hcor2]
  rw [call1, call2]
  exact ⟨rfl, rfl, rfl, rfl, rfl⟩

/-- C1 (amended, witness): the amended replay behaviour at a concrete
envelope, key and empty cache. -/
theorem createNotification_replay_amended_witness :
    ¬ envT.tenantId = "" ∧ ¬ "k" = ""
    ∧ idemLookup [] envT.tenantId "k" = none
    ∧ (createNotification "idB" 7 "k" envT
        (createNotification "idA" 6 "k" envT [] ⟨[], []⟩).2.1
        (createNotification "idA" 6 "k" envT [] ⟨[], []⟩).2.2).1
      = ⟨201, some "idA", true⟩ := by
  have h := createNotification_replay_amended envT "k" "idA" "idB" 6 7 [] ⟨[], []⟩
    (by decide) (by decide) (Or.inl rfl) (by decide) rfl
  exact ⟨by decide, by decide, rfl, h.2.2.2.1⟩

/-- C2: the worker computes new_attempt = attempt + 1 and then: on sender
success it marks the row sent with attempt new_attempt and no error and
no next_retry_at; on failure with new_attempt ≥ max_attempts it performs
the atomic move_to_dead_letter (DLQ row appended and status
dead_lettered together); on failure with new_attempt < max_attempts it
re-schedules the row pending with the error text and next_retry_at =
now + backoff(new_attempt), where backoff is 1 min for attempt 1, 5 min
for attempt 2 and 15 min for attempt ≥ 3. -/
theorem processNotification_spec (cfg : WorkerConfig) (now : Int)
    (dlqId : String) (res : SendOutcome) (s : Store) (notif row : Notification)
    (hrow : s.getNotification notif.id = some row) (ha : 0 ≤ notif.attempt) :
    (res = none →
      (processNotification cfg now dlqId res s notif).getNotification notif.id =
        some { row with
                status := StatusSent
                attempt := notif.attempt + 1
                errorMessage := none
                nextRetryAt := none })
    ∧ (∀ msg, res = some msg → cfg.maxRetries ≤ notif.attempt + 1 →
        (processNotification cfg now dlqId res s notif).deadLetters =
          s.deadLetters ++ [⟨dlqId, notif.id, notif.tenantId, notif.userId,
            notif.channel, notif.payload, notif.attempt, msg,
            DLQStatusPending, none, now⟩]
        ∧ ∃ r, (processNotification cfg now dlqId res s notif).getNotification
            notif.id = some r ∧ r.status = StatusDeadLettered)
    ∧ (∀ msg, res = some msg → notif.attempt + 1 < cfg.maxRetries →
        (processNotification cfg now dlqId res s notif).getNotification notif.id =
          some { row with
                  status := StatusPending
                  attempt := notif.attempt + 1
                  errorMessage := some msg
                  nextRetryAt := some (now + backoffDelay (notif.attempt + 1)) }
        ∧ backoffDelay (notif.attempt + 1) =
            (if notif.attempt + 1 = 1 then 60
             else if notif.attempt + 1 = 2 then 300 else 900)) := by
  refine ⟨?_, ?_, ?_⟩
  · intro hres
    subst hres
    exact processNotification_sent cfg now dlqId hrow
  · intro msg hres hge
    subst hres
    obtain ⟨h1, h2⟩ := processNotification_dlq cfg now dlqId msg hrow hge
    exact ⟨h2, ⟨_, h1, rfl⟩⟩
  · intro msg hres hlt
    subst hres
    exact ⟨processNotification_retry cfg now dlqId msg hrow ha hlt, rfl⟩

/-- C2 (witness): the retry branch at a concrete pending notification
(attempt 0, cap 3): the row is re-scheduled pending with attempt 1 and a
1-minute backoff. -/
theorem processNotification_spec_witness :
    storeT.getNotification notifT.id = some notifT
    ∧ (0 : Int) ≤ notifT.attempt
    ∧ notifT.attempt + 1 < cfgT.maxRetries
    ∧ (processNotification cfgT 0 "d" (some "provider down") storeT notifT).getNotification
        notifT.id = some { notifT with
                            status := StatusPending
                            attempt := 1
                            errorMessage := some "provider down"
                            nextRetryAt := some 60 } := by
  have h := (processNotification_spec cfgT 0 "d" (some "provider down") storeT
    notifT notifT (by decide) (by decide)).2.2 "provider down" rfl (by decide)
  exact ⟨by decide, by decide, by decide, h.1.trans (by decide)⟩

/-- C3 (counterexample): UpdateNotificationStatus is unconditional, so
the operator PATCH overwrites a terminal status — here a sent
notification is moved back to pending with HTTP 200. -/
theorem updateStatusHandler_overwrites_sent :
    (sSentT.getNotification "n9").map Notification.status = some StatusSent
    ∧ (updateNotificationStatusHandler sSentT "n9" StatusPending 0 none).1 = 200
    ∧ ((updateNotificationStatusHandler sSentT "n9" StatusPending 0
        none).2.getNotification "n9").map Notification.status
      = some StatusPending := by
  decide

/-- C3 (amended): terminal statuses are not protected at the store level
— the operator PATCH (or any update_status call) can overwrite them.
What does hold: the worker's pickup query returns only pending rows, so
a worker tick never touches a notification whose status is sent or
dead_lettered (assuming primary-key-unique ids): the row survives the
tick unchanged. -/
theorem processBatch_preserves_terminal (cfg : WorkerConfig) (now : Int)
    (dlqIdFor : String → String) (send : Notification → SendOutcome)
    (s : Store) (r : Notification)
    (hnd : (s.notifications.map Notification.id).Nodup)
    (hr : r ∈ s.notifications)
    (hterm : r.status = StatusSent ∨ r.status = StatusDeadLettered) :
    r ∈ (processBatch cfg now dlqIdFor send s).notifications := by
  unfold processBatch
  apply foldl_process_preserves cfg now dlqIdFor send _ s r hr
  intro n hn hid
  have hnmem : n ∈ s.notifications := by
    unfold Store.getPendingNotifications at hn
    exact List.mem_of_mem_filter (List.mem_of_mem_take hn)
  have hdue : notificationDue now n = true := by
    unfold Store.getPendingNotifications at hn
    exact List.of_mem_filter (List.mem_of_mem_take hn)
  have hpend : n.status = StatusPending := notificationDue_status hdue
  have heq : n = r := List.inj_on_of_nodup_map hnd hnmem hr hid
  rw [heq] at hpend
  rcases hterm with h | h
  · exact absurd (h.symm.trans hpend) (by decide)
  · exact absurd (h.symm.trans hpend) (by decide)

/-- C3 (amended, witness): a concrete tick over a store holding a
pending and a sent row leaves the sent row in place. -/
theorem processBatch_preserves_terminal_witness :
    ((sMixT.notifications.map Notification.id).Nodup
      ∧ sentRowT ∈ sMixT.notifications
      ∧ sentRowT.status = StatusSent)
    ∧ sentRowT ∈ (processBatch cfgT 0 dlqIdT failSendT sMixT).notifications :=
  ⟨⟨by decide, by decide, rfl⟩,
    processBatch_preserves_terminal cfgT 0 dlqIdT failSendT sMixT sentRowT
      (by decide) (by decide) (Or.inl rfl)⟩

/-- C4 (code evaluated at the failing input): with max_attempts = 3 and
an always-failing sender, after the three tick-cycles the DLQ entry
created by the atomic move records attempts = 2 — the pre-increment
count MoveToDeadLetter copies out of the in-memory row — not the
terminal count 3 required by the claim (the worker's own log reports
newAttempt = 3 at that point).  The atomicity half of the claim holds:
the same store holds the DLQ row and the dead_lettered status. -/
theorem deadLetter_attempts_failing_input :
    cfgT.maxRetries = 3
    ∧ runDeadLetterT.deadLetters.map DeadLetterNotification.attempts = [2]
    ∧ (runDeadLetterT.getNotification "n1").map Notification.status
        = some StatusDeadLettered := by
  decide

/-- C5 (counterexample): the claim quantifies over the step relation
including Reset, but Reset returns an open breaker to closed without any
half-open probe, refuting the only-if direction at the config
max_failures = 1. -/
theorem cbReset_closes_without_probe : ¬ cbClaimFive cfgCBT := by
  intro h
  have h2 := (h.1 cbOpenT CBOp.resetOp 0 (by decide)).mp (by decide)
  exact absurd h2.1 (by decide)

/-- C5 (amended): excluding the operator Reset override, a breaker that
has left closed becomes closed again exactly when RecordSuccess is
applied in half-open (the probe outcome); and from closed the state
moves to open only through RecordFailure once the incremented
consecutive-failure count has reached max_failures. -/
theorem cbStep_amended (cfg : CBConfig) (cb : CB) (now : Int) :
    (∀ op : CBOp, op ≠ CBOp.resetOp → cb.state ≠ CBState.StateClosed →
      ((cbStep cfg now op cb).state = CBState.StateClosed ↔
        (op = CBOp.recordSuccessOp ∧ cb.state = CBState.StateHalfOpen)))
    ∧ (∀ op : CBOp, cb.state = CBState.StateClosed →
      (cbStep cfg now op cb).state = CBState.StateOpen →
        op = CBOp.recordFailureOp
        ∧ (cbStep cfg now op cb).failureCount = cb.failureCount + 1
        ∧ cfg.maxFailures ≤ cb.failureCount + 1) := by
  constructor
  · intro op hop hne
    cases op with
    | allowOp =>
      cases hst : cb.state with
      | StateClosed => exact absurd hst hne
      | StateOpen =>
        simp only [cbStep, CB.allow, CB.transitionTo, hst]
        split_ifs <;> simp
      | StateHalfOpen =>
        simp only [cbStep, CB.allow, hst]
        split_ifs <;> simp [hst]
    | recordSuccessOp =>
      cases hst : cb.state with
      | StateClosed => exact absurd hst hne
      | StateOpen =>
        simp only [cbStep, CB.recordSuccess, CB.transitionTo, hst]
        simp
      | StateHalfOpen =>
        simp only [cbStep, CB.recordSuccess, CB.transitionTo, hst]
        simp
    | recordFailureOp =>
      cases hst : cb.state with
      | StateClosed => exact absurd hst hne
      | StateOpen =>
        simp only [cbStep, CB.recordFailure, hst]
        simp
      | StateHalfOpen =>
        simp only [cbStep, CB.recordFailure, CB.transitionTo, hst]
        simp
    | resetOp => exact absurd rfl hop
  · intro op hst
    cases op with
    | allowOp =>
      simp only [cbStep, CB.allow, hst]
      simp [hst]
    | recordSuccessOp =>
      simp only [cbStep, CB.recordSuccess, CB.transitionTo, hst]
      simp [hst]
    | recordFailureOp =>
      by_cases hc : cfg.maxFailures ≤ cb.failureCount + 1
      · intro _
        refine ⟨rfl, ?_, hc⟩
        simp [cbStep, CB.recordFailure, CB.transitionTo, hst, hc]
      · intro hopen
        have hstate : (cbStep cfg now CBOp.recordFailureOp cb).state =
            CBState.StateClosed := by
          simp [cbStep, CB.recordFailure, CB.transitionTo, hst, hc]
        rw [hopen] at hstate
        exact absurd hstate (by decide)
    | resetOp =>
      simp only [cbStep, CB.reset, CB.transitionTo, hst]
      simp [hst]

/-- C5 (amended, witness): a half-open breaker closes on a recorded
probe success. -/
theorem cbStep_amended_witness :
    (CBOp.recordSuccessOp ≠ CBOp.resetOp ∧ cbHalfT.state ≠ CBState.StateClosed)
    ∧ (cbStep cfgCBT 31 CBOp.recordSuccessOp cbHalfT).state = CBState.StateClosed :=
  ⟨⟨by decide, by decide⟩,
    ((cbStep_amended cfgCBT cbHalfT 31).1 CBOp.recordSuccessOp (by decide)
      (by decide)).mpr ⟨rfl, by decide⟩⟩

/-- C6: the first retry_dlq on a pending DLQ entry succeeds, creating
exactly one new pending notification with attempt 0 and the copied
payload, and atomically marks the entry retried pointing at it; a second
retry_dlq on the same entry fails with the already-processed conflict
and creates no notification (the operation returns only the error). -/
theorem retryDeadLetter_spec (s : Store) (freshId freshId2 : String)
    (now now2 : Int) (dlqId : String) (d : DeadLetterNotification)
    (hd : s.getDeadLetter dlqId = some d)
    (hpend : d.status = DLQStatusPending) :
    ∃ s2 newNotif,
      s.retryDeadLetter freshId now dlqId = .ok (s2, newNotif)
      ∧ newNotif = ⟨freshId, d.tenantId, d.userId, d.channel, d.payload,
          StatusPending, 0, none, none, now⟩
      ∧ s2.notifications = s.notifications ++ [newNotif]
      ∧ s2.getDeadLetter dlqId =
          some { d with
                  status := DLQStatusRetried
                  retriedNotificationId := some freshId }
      ∧ s2.retryDeadLetter freshId2 now2 dlqId =
          .error ("dead letter already processed: " ++ DLQStatusRetried) := by
  have hid : d.id = dlqId := by
    have := List.find?_some hd
    simpa using this
  have hnp : ¬ d.status ≠ DLQStatusPending := not_not_intro hpend
  have call1 : s.retryDeadLetter freshId now dlqId =
      .ok (⟨s.notifications ++ [⟨freshId, d.tenantId, d.userId, d.channel,
              d.payload, StatusPending, 0, none, none, now⟩],
            s.deadLetters.map fun e =>
              if e.id = dlqId then
                { e with
                    status := DLQStatusRetried
                    retriedNotificationId := some freshId }
              else e⟩,
           ⟨freshId, d.tenantId, d.userId, d.channel, d.payload,
             StatusPending, 0, none, none, now⟩) := by
    simp only [Store.retryDeadLetter, hd, if_neg hnp]
  have hget2 : (⟨s.notifications ++ [⟨freshId, d.tenantId, d.userId, d.channel,
            d.payload, StatusPending, 0, none, none, now⟩],
          s.deadLetters.map fun e =>
            if e.id = dlqId then
              { e with
                  status := DLQStatusRetried
                  retriedNotificationId := some freshId }
            else e⟩ : Store).getDeadLetter dlqId =
      some { d with
              status := DLQStatusRetried
              retriedNotificationId := some freshId } := by
    unfold Store.getDeadLetter
    rw [find?_map_eq _ _ _ (fun e => by by_cases he : e.id = dlqId <;> simp [he])]
    have : s.deadLetters.find? (fun e => e.id = dlqId) = some d := hd
    rw [this]
    simp [hid]
  refine ⟨_, _, call1, rfl, rfl, hget2, ?_⟩
  have hcond : ({ d with
      status := DLQStatusRetried
      retriedNotificationId := some freshId } : DeadLetterNotification).status ≠
      DLQStatusPending := by
    intro hcontra
    have h2 : DLQStatusRetried = DLQStatusPending := hcontra
    exact absurd h2 (by decide)
  simp only [Store.retryDeadLetter, hget2, if_pos hcond]

/-- C6 (witness): the retry at a concrete pending DLQ entry succeeds. -/
theorem retryDeadLetter_spec_witness :
    sDlqT.getDeadLetter "d1" = some dlqRowT
    ∧ dlqRowT.status = DLQStatusPending
    ∧ (sDlqT.retryDeadLetter "n2" 3000 "d1").isOk = true := by
  obtain ⟨s2, nn, h1, -, -, -, -⟩ :=
    retryDeadLetter_spec sDlqT "n2" "n3" 3000 4000 "d1" dlqRowT (by decide) (by decide)
  refine ⟨by decide, by decide, ?_⟩
  rw [h1]
  rfl

/-- C7 (counterexample): an sms notification routed by a sender list
that only supports webhooks yields the routing error, yet the worker's
next step below the cap re-schedules it as pending with backoff and an
incremented attempt — it does not move directly to the dead-letter
queue. -/
theorem routingError_not_direct_dlq :
    multiSend [webhookOnlyT] notifSmsT = some "no sender found for channel: sms"
    ∧ ((processNotification cfgT 0 "d" (multiSend [webhookOnlyT] notifSmsT)
        sSmsT notifSmsT).getNotification "n5").map Notification.status
      = some StatusPending
    ∧ ((processNotification cfgT 0 "d" (multiSend [webhookOnlyT] notifSmsT)
        sSmsT notifSmsT).getNotification "n5").map Notification.attempt
      = some 1
    ∧ (processNotification cfgT 0 "d" (multiSend [webhookOnlyT] notifSmsT)
        sSmsT notifSmsT).deadLetters = [] := by
  refine ⟨rfl, rfl, rfl, rfl⟩

/-- C7 (amended): a routing error (no sender supports the channel) is an
ordinary send failure for the worker: below the cap the notification
cycles through the retry/backoff loop with the attempt count
incremented, and it reaches the dead-letter queue only when new_attempt
≥ max_attempts. -/
theorem routingError_amended (senders : List SenderModel) (cfg : WorkerConfig)
    (now : Int) (dlqId : String) (s : Store) (notif row : Notification)
    (hns : ∀ sd ∈ senders, sd.supportsChannel notif.channel = false)
    (hrow : s.getNotification notif.id = some row) (ha : 0 ≤ notif.attempt) :
    multiSend senders notif = some ("no sender found for channel: " ++ notif.channel)
    ∧ (notif.attempt + 1 < cfg.maxRetries →
        (processNotification cfg now dlqId (multiSend senders notif) s
            notif).getNotification notif.id =
          some { row with
                  status := StatusPending
                  attempt := notif.attempt + 1
                  errorMessage := some ("no sender found for channel: " ++ notif.channel)
                  nextRetryAt := some (now + backoffDelay (notif.attempt + 1)) })
    ∧ (cfg.maxRetries ≤ notif.attempt + 1 →
        ∃ r, (processNotification cfg now dlqId (multiSend senders notif) s
            notif).getNotification notif.id = some r
          ∧ r.status = StatusDeadLettered) := by
  have hms := multiSend_none senders notif hns
  rw [hms]
  refine ⟨rfl, ?_, ?_⟩
  · intro hlt
    exact processNotification_retry cfg now dlqId _ hrow ha hlt
  · intro hge
    exact ⟨_, (processNotification_dlq cfg now dlqId _ hrow hge).1, rfl⟩

/-- C7 (amended, witness): the routed sms notification lands back in
pending with attempt 1 and the one-minute backoff. -/
theorem routingError_amended_witness :
    (∀ sd ∈ [webhookOnlyT], sd.supportsChannel notifSmsT.channel = false)
    ∧ (processNotification cfgT 0 "d" (multiSend [webhookOnlyT] notifSmsT)
        sSmsT notifSmsT).getNotification notifSmsT.id =
      some { notifSmsT with
              status := StatusPending
              attempt := 1
              errorMessage := some "no sender found for channel: sms"
              nextRetryAt := some 60 } := by
  have hsup : ∀ sd ∈ [webhookOnlyT], sd.supportsChannel notifSmsT.channel = false := by
    intro sd hsd
    rw [List.mem_singleton] at hsd
    subst hsd
    decide
  have h := routingError_amended [webhookOnlyT] cfgT 0 "d" sSmsT notifSmsT
    notifSmsT hsup (by decide) (by decide)
  exact ⟨hsup, (h.2.1 (by decide)).trans (by decide)⟩

/-- C8 (counterexample): after the dead-lettering run the notification
record has status dead_lettered while next_retry_at is still set (to the
retry time scheduled by the previous failed cycle) — the move does not
clear it, contradicting the claim that next_retry_at is unset on
dead_lettered records. -/
theorem deadLettered_keeps_nextRetryAt :
    (runDeadLetterT.getNotification "n1").map Notification.status
      = some StatusDeadLettered
    ∧ (runDeadLetterT.getNotification "n1").map Notification.nextRetryAt
      = some (some 1300) := by
  decide

/-- C8 (amended): marking sent clears next_retry_at (the update passes
nil), but the atomic move to dead-letter leaves the notification's
next_retry_at exactly as the processing mark wrote it — the value of the
in-memory row, which is non-null whenever a retry had been scheduled. -/
theorem nextRetryAt_amended (cfg : WorkerConfig) (now : Int) (dlqId msg : String)
    (s : Store) (notif row : Notification)
    (hrow : s.getNotification notif.id = some row)
    (hge : cfg.maxRetries ≤ notif.attempt + 1) :
    (∃ r, (processNotification cfg now dlqId none s notif).getNotification
        notif.id = some r ∧ r.status = StatusSent ∧ r.nextRetryAt = none)
    ∧ (∃ r, (processNotification cfg now dlqId (some msg) s
        notif).getNotification notif.id = some r
        ∧ r.status = StatusDeadLettered ∧ r.nextRetryAt = notif.nextRetryAt) :=
  ⟨⟨_, processNotification_sent cfg now dlqId hrow, rfl, rfl⟩,
   ⟨_, (processNotification_dlq cfg now dlqId msg hrow hge).1, rfl, rfl⟩⟩

/-- C8 (amended, witness): at the third failing cycle the dead-lettered
row keeps its scheduled retry time (1300), while a success would have
cleared it. -/
theorem nextRetryAt_amended_witness :
    sCycle3T.getNotification notifCycle3T.id = some notifCycle3T
    ∧ cfgT.maxRetries ≤ notifCycle3T.attempt + 1
    ∧ ((processNotification cfgT 2000 "d" (some "provider down") sCycle3T
        notifCycle3T).getNotification notifCycle3T.id).map Notification.nextRetryAt
      = some (some 1300) := by
  obtain ⟨-, r, hr, -, hnr⟩ := nextRetryAt_amended cfgT 2000 "d" "provider down"
    sCycle3T notifCycle3T notifCycle3T (by decide) (by decide)
  refine ⟨by decide, by decide, ?_⟩
  rw [hr]
  show some r.nextRetryAt = some (some 1300)
  rw [hnr]
  rfl

/-- C9: over any sequence of AllowN calls for one key with
non-decreasing call times, every time window of length W of the admitted
history (counting n scores per admitted call) holds at most limit
entries — a consequence of the admission guard: the pruned in-window
count plus n never exceeds the limit at the moment of admission. -/
theorem rateLimiter_window_bound (cfg : RLConfig) (calls : List (Int × Nat))
    (T : Int) (hlim : 0 ≤ cfg.limit)
    (hmono : List.Pairwise (fun a b : Int × Nat => a.1 ≤ b.1) calls) :
    (((rlRun cfg calls).admitted.filter (inWindow cfg T)).length : Int)
      ≤ cfg.limit := by
  unfold rlRun
  cases calls with
  | nil => simpa using hlim
  | cons c rest =>
    refine rlRun_window_aux cfg (c :: rest) ⟨[], []⟩ c.1 ?_ hmono ?_ ?_ T
    · intro x hx
      rcases List.mem_cons.mp hx with h | h
      · rw [h]
      · exact (List.pairwise_cons.mp hmono).1 x h
    · intro v _
      simp
    · intro U
      simpa using hlim

/-- C9 (witness): three admitted calls at times 0, 1, 2 against limit 2
with window 10: any window, here the one ending at time 5, holds at most
2 admitted entries. -/
theorem rateLimiter_window_bound_witness :
    ((0 : Int) ≤ cfgRLT.limit
      ∧ List.Pairwise (fun a b : Int × Nat => a.1 ≤ b.1)
          [((0 : Int), (1 : Nat)), (1, 1), (2, 1)])
    ∧ ((((rlRun cfgRLT [((0 : Int), (1 : Nat)), (1, 1), (2, 1)]).admitted.filter
        (inWindow cfgRLT 5)).length : Int) ≤ cfgRLT.limit) :=
  ⟨⟨by decide, by decide⟩,
    rateLimiter_window_bound cfgRLT [((0 : Int), (1 : Nat)), (1, 1), (2, 1)] 5
      (by decide) (by decide)⟩

/-- C10: a rejected AllowN call changes the key's entry set only by
pruning scores older than the window — it appends nothing, so a rejected
request consumes no quota — and the returned Remaining is
max 0 (limit - pruned count). -/
theorem allowN_rejected_frame (cfg : RLConfig) (now : Int) (n : Nat)
    (entries : List Int)
    (h : (allowN cfg now n entries).1.allowed = false) :
    (allowN cfg now n entries).2 = pruneEntries (now - cfg.window) entries
    ∧ (allowN cfg now n entries).2.Sublist entries
    ∧ (allowN cfg now n entries).1.remaining =
        max 0 (cfg.limit - ((pruneEntries (now - cfg.window) entries).length : Int)) := by
  by_cases hc : cfg.limit <
      ((pruneEntries (now - cfg.window) entries).length : Int) + n
  · unfold allowN
    simp only [if_pos hc]
    exact ⟨trivial, List.filter_sublist entries, trivial⟩
  · exfalso
    unfold allowN at h
    simp only [if_neg hc] at h
    exact absurd h (by simp)

/-- C10 (witness): with two live entries at the limit of 2, the next
call is rejected, the set stays [5, 6] and Remaining is 0. -/
theorem allowN_rejected_frame_witness :
    (allowN cfgRLT 6 1 [5, 6]).1.allowed = false
    ∧ (allowN cfgRLT 6 1 [5, 6]).2 = pruneEntries (6 - cfgRLT.window) [5, 6]
    ∧ (allowN cfgRLT 6 1 [5, 6]).1.remaining =
        max 0 (cfgRLT.limit -
          ((pruneEntries (6 - cfgRLT.window) [5, 6]).length : Int)) := by
  have h := allowN_rejected_frame cfgRLT 6 1 [5, 6] (by decide)
  exact ⟨by decide, h.1, h.2.2⟩

end Nimbus
